import Mathlib

/-!
Shallow embedding of the stateless conversational orchestration layer of the
task-management backend (FastAPI + SQLModel service code under
`src/backend/src`).  Identifiers (UUIDs) are modelled as natural numbers;
timestamps as natural numbers (chat side) or integers in minutes (reminder
side).  Python exceptions are modelled by the `PyErr` sum type; commits are
modelled by returning the updated database value.  Pydantic validation is
modelled by explicit `validate` functions returning `Except`; in pydantic v2 a
`ValidationError` is a `ValueError`, which is why validation failures are
represented by the `PyErr.valueError` constructor.
-/

namespace TaskChat

/-- Exception model: `valueError` covers Python `ValueError` and pydantic
`ValidationError` (a subclass of `ValueError`); `permissionError` covers
`PermissionError`; the remaining constructors cover the agent-layer exception
types distinguished by the chat endpoint. -/
inductive PyErr
| valueError (msg : String)
| permissionError (msg : String)
| maxTurnsExceeded
| apiError
| otherError
deriving DecidableEq

/-- Decidable success test for `Except` values. -/
def exceptOk {ε α : Type} (e : Except ε α) : Bool :=
  match e with
  | .ok _ => true
  | .error _ => false

/-- Message row (`src/models/message.py`): conversation foreign key, role,
content and creation timestamp.  The surrogate `id` column is never consulted
by the orchestration logic and is omitted. -/
structure Message where
  conversation_id : Nat
  role : String
  content : String
  created_at : Nat
deriving DecidableEq

/-- Conversation row (`src/models/conversation.py`). -/
structure Conversation where
  id : Nat
  user_id : Nat
  title : Option String
  created_at : Nat
  updated_at : Nat
deriving DecidableEq

/-- Chat-side database state: the conversations and messages tables. -/
structure ChatDB where
  conversations : List Conversation
  messages : List Message
deriving DecidableEq

/-- Validated payload of `MessageCreate` (`src/schemas/conversation.py`). -/
structure MessageCreate where
  role : String
  content : String
deriving DecidableEq

/-- Role literal check of `MessageCreate.role`. -/
def validRole (r : String) : Bool :=
  r == "user" || r == "assistant" || r == "system"

/-- Error text used for a failed pydantic validation of `MessageCreate`. -/
def msgCreateValidationMsg : String := "validation error for MessageCreate"

/-- Pydantic constructor of `MessageCreate`: role must be one of the three
literals and content must be 1..50000 characters, else a `ValidationError`
(a `ValueError`) is raised. -/
def MessageCreate.validate (role content : String) : Except PyErr MessageCreate :=
  if validRole role && (decide (1 ≤ content.length) && decide (content.length ≤ 50000)) then
    .ok ⟨role, content⟩
  else
    .error (.valueError msgCreateValidationMsg)

/-- The `create_conversation` service (`conversation_service.py`): inserts a
new conversation row owned by the user.  The generated primary key and commit
timestamp enter as the `newId` and `now` parameters. -/
def create_conversation (db : ChatDB) (user_id : Nat) (title : Option String)
    (newId now : Nat) : ChatDB × Conversation :=
  let conv : Conversation := ⟨newId, user_id, title, now, now⟩
  (⟨db.conversations ++ [conv], db.messages⟩, conv)

/-- The `get_conversation` service: select by id AND owner, first row or none. -/
def get_conversation (db : ChatDB) (user_id conversation_id : Nat) : Option Conversation :=
  db.conversations.find? (fun c => c.id == conversation_id && c.user_id == user_id)

/-- Existence probe used by `verify_conversation_ownership`: select by id only. -/
def conversation_exists (db : ChatDB) (conversation_id : Nat) : Bool :=
  (db.conversations.find? (fun c => c.id == conversation_id)).isSome

/-- The `add_message` service: insert the message row and, in the same
transaction, bump the parent conversation's `updated_at`.  Primary keys are
unique in the conversations table, so updating every row with the matching id
models the source's first-row update. -/
def add_message (db : ChatDB) (conversation_id : Nat) (data : MessageCreate)
    (now : Nat) : ChatDB × Message :=
  let message : Message := ⟨conversation_id, data.role, data.content, now⟩
  let convs := db.conversations.map (fun c =>
    if c.id == conversation_id then ⟨c.id, c.user_id, c.title, c.created_at, now⟩ else c)
  (⟨convs, db.messages ++ [message]⟩, message)

/-- Comparison used by the `ORDER BY created_at ASC` clause of `get_messages`. -/
def msgLe (a b : Message) : Prop := a.created_at ≤ b.created_at

instance : DecidableRel msgLe := fun a b => Nat.decLe a.created_at b.created_at

instance : IsTotal Message msgLe := ⟨fun a b => Nat.le_total a.created_at b.created_at⟩

instance : IsTrans Message msgLe := ⟨fun _ _ _ h1 h2 => Nat.le_trans h1 h2⟩

/-- The `get_messages` service: all messages of the conversation ordered by
ascending creation time (a stable sort models the SQL ordering). -/
def get_messages (db : ChatDB) (conversation_id : Nat) : List Message :=
  List.insertionSort msgLe (db.messages.filter (fun m => m.conversation_id == conversation_id))

/-- One input item handed to the agent SDK (a role/content pair). -/
structure InputMsg where
  role : String
  content : String
deriving DecidableEq

/-- The `messages_to_input_list` helper (`agent/runner.py`). -/
def messages_to_input_list (messages : List Message) : List InputMsg :=
  messages.map (fun m => ⟨m.role, m.content⟩)

/-!
Model of `extract_tool_calls` (`agent/runner.py`).  The Python JSON parser is
library code; its outcome on a payload string is abstracted by `JsonParse`:
the parse either raises `JSONDecodeError`, yields a JSON object (whose fields
are abstracted as string key/value pairs), or yields a non-object JSON value.
-/

/-- Outcome of `json.loads` on a string payload. -/
inductive JsonParse
| fail
| jobj (fields : List (String × String))
| jother (val : String)
deriving DecidableEq

/-- The `function` sub-payload of a tool-call raw item: an optional `name`
and an optional `arguments` string (the latter abstracted by its parse
outcome; `none` models an absent, `None` or empty payload, for which the
source substitutes the empty-object string). -/
structure FuncInfo where
  name : Option String
  arguments : Option JsonParse
deriving DecidableEq

/-- Raw payload of a `ToolCallItem`.  The source handles an attribute-bearing
object and a dictionary identically for tool calls: `id` is preferred over
`call_id`, and name/arguments come from the `function` sub-payload when one is
present, else from the top level. -/
structure CallRaw where
  id : Option String
  call_id : Option String
  function : Option FuncInfo
  name : Option String
  arguments : Option JsonParse
deriving DecidableEq

/-- The `output` attribute of a `ToolCallOutputItem`: a string (abstracted by
its parse outcome together with its literal text), a dictionary, or any other
Python value (abstracted by its string rendering). -/
inductive PyOut
| strOut (raw : String) (parse : JsonParse)
| dictOut (fields : List (String × String))
| otherOut (reprStr : String)
deriving DecidableEq

/-- Raw payload of a `ToolCallOutputItem`.  For outputs the source treats
objects and dictionaries differently: an object is keyed only by its
`call_id` attribute, while a dictionary is keyed by its `call_id` entry and
falls back to its `id` entry. -/
structure OutRaw where
  isDict : Bool
  id : Option String
  call_id : Option String
  output : PyOut
deriving DecidableEq

/-- One entry of `RunResult.new_items`: a tool call, a tool output, or any
other item kind (message output, reasoning, ...) which extraction skips. -/
inductive RunItem
| toolCall (c : CallRaw)
| toolOutput (o : OutRaw)
| otherItem
deriving DecidableEq

/-- Correlation key of a tool-call item: `id` preferred, then `call_id`. -/
def callKey (c : CallRaw) : Option String :=
  c.id.orElse (fun _ => c.call_id)

/-- Correlation key of a tool-output item (`continue` when absent). -/
def outputKey (o : OutRaw) : Option String :=
  if o.isDict then o.call_id.orElse (fun _ => o.id) else o.call_id

/-- Assignment into the output map: Python dictionary assignment overwrites
the previous binding of the key. -/
def insertOutput (m : List (String × OutRaw)) (k : String) (o : OutRaw) :
    List (String × OutRaw) :=
  m.filter (fun p => p.1 != k) ++ [(k, o)]

/-- First pass of `extract_tool_calls`: build the map from correlation key to
tool-output item, in item order. -/
def buildOutputMapAux (m : List (String × OutRaw)) : List RunItem → List (String × OutRaw)
  | [] => m
  | .toolOutput o :: rest =>
    match outputKey o with
    | some k => buildOutputMapAux (insertOutput m k o) rest
    | none => buildOutputMapAux m rest
  | _ :: rest => buildOutputMapAux m rest

/-- The output map of a run-item list. -/
def buildOutputMap (items : List RunItem) : List (String × OutRaw) :=
  buildOutputMapAux [] items

/-- Tool name and arguments payload of a call item: from the `function`
sub-payload when present, else from the top-level fields, with the empty
string as the name default. -/
def callNameArgs (c : CallRaw) : String × Option JsonParse :=
  match c.function with
  | some f => (f.name.getD "", f.arguments)
  | none => (c.name.getD "", c.arguments)

/-- Candidate structured data for the `parameters` / `result` fields before
pydantic sees it: either a dictionary or a non-dictionary Python value. -/
inductive DataCand
| fields (fs : List (String × String))
| bad (val : String)
deriving DecidableEq

/-- Parameter extraction: an absent or empty payload and a payload that fails
to parse both degrade to the empty dictionary; a parse yielding a non-object
value is passed through to pydantic as-is. -/
def paramsOf (args : Option JsonParse) : DataCand :=
  match args with
  | none => .fields []
  | some .fail => .fields []
  | some (.jobj fs) => .fields fs
  | some (.jother v) => .bad v

/-- Result extraction for a matched output: a string that fails to parse is
wrapped as a raw-keyed dictionary, a parsed object or a dictionary output is
taken as-is, a parsed non-object is passed through to pydantic, any other
value leaves the result empty; `success` is true in every matched case. -/
def resultOf (o : OutRaw) : Option DataCand × Bool :=
  match o.output with
  | .strOut raw p =>
    match p with
    | .fail => (some (.fields [("raw", raw)]), true)
    | .jobj fs => (some (.fields fs), true)
    | .jother v => (some (.bad v), true)
  | .dictOut fs => (some (.fields fs), true)
  | .otherOut _ => (none, true)

/-- The `ToolCall` response schema (`src/schemas/chat.py`): `parameters` is a
dictionary and `result` an optional dictionary. -/
structure ToolCall where
  tool_name : String
  parameters : List (String × String)
  result : Option (List (String × String))
  success : Bool
deriving DecidableEq

/-- Error text of a failed pydantic validation of `ToolCall`. -/
def toolCallValidationMsg : String := "validation error for ToolCall"

/-- Pydantic construction of `ToolCall`: a non-dictionary `parameters` or
`result` value raises a `ValidationError` (a `ValueError`), which the
extraction loop does not catch. -/
def mkToolCall (name : String) (params : DataCand) (res : Option DataCand)
    (succ : Bool) : Except PyErr ToolCall :=
  match params, res with
  | .fields ps, none => .ok ⟨name, ps, none, succ⟩
  | .fields ps, some (.fields rs) => .ok ⟨name, ps, some rs, succ⟩
  | _, _ => .error (.valueError toolCallValidationMsg)

/-- Trace entry for one tool-call item: look the call's key up in the output
map; a keyless or unmatched call is recorded with no result and
`success := false`. -/
def extractCallEntry (m : List (String × OutRaw)) (c : CallRaw) : Except PyErr ToolCall :=
  let params := paramsOf (callNameArgs c).2
  match callKey c with
  | some k =>
    match m.lookup k with
    | some o => mkToolCall (callNameArgs c).1 params (resultOf o).1 (resultOf o).2
    | none => mkToolCall (callNameArgs c).1 params none false
  | none => mkToolCall (callNameArgs c).1 params none false

/-- Second pass of `extract_tool_calls`: one trace entry per tool-call item,
in order; an uncaught exception aborts the traversal. -/
def extractCalls (m : List (String × OutRaw)) : List RunItem → Except PyErr (List ToolCall)
  | [] => .ok []
  | .toolCall c :: rest =>
    match extractCallEntry m c with
    | .error e => .error e
    | .ok entry =>
      match extractCalls m rest with
      | .error e => .error e
      | .ok tr => .ok (entry :: tr)
  | .toolOutput _ :: rest => extractCalls m rest
  | .otherItem :: rest => extractCalls m rest

/-- The `extract_tool_calls` function (`agent/runner.py`). -/
def extract_tool_calls (items : List RunItem) : Except PyErr (List ToolCall) :=
  extractCalls (buildOutputMap items) items

/-- Agent run result: the final text (optional) and the produced items. -/
structure RunResult where
  final_output : Option String
  new_items : List RunItem
deriving DecidableEq

/-- Outcome of one `run_agent_with_history` invocation: either an exception
escapes the agent loop, or it completes with a `RunResult`. -/
inductive AgentOutcome
| raises (e : PyErr)
| completes (result : RunResult)
deriving DecidableEq

/-- The reasoning oracle with its tool loop, abstracted as a function from the
input item list and the user-id string to an outcome. -/
def AgentFun : Type := List InputMsg → String → AgentOutcome

/-!
Model of `chat_service.py` and the chat endpoint of `api/chat.py`.
-/

/-- The `ChatRequest` schema: message of 1..50000 characters and an optional
conversation id. -/
structure ChatRequest where
  message : String
  conversation_id : Option Nat
deriving DecidableEq

/-- FastAPI-level validity of a `ChatRequest` (enforced before the handler
runs; invalid bodies are rejected with 422). -/
def ChatRequest.valid (r : ChatRequest) : Bool :=
  decide (1 ≤ r.message.length) && decide (r.message.length ≤ 50000)

/-- The `ChatResponse` schema. -/
structure ChatResponse where
  conversation_id : Nat
  assistant_message : String
  tool_calls : List ToolCall
  created_at : Nat
deriving DecidableEq

/-- The `verify_conversation_ownership` service: the two failure modes are
distinguished — an id that exists under another owner raises
`PermissionError`, a missing id raises `ValueError`. -/
def verify_conversation_ownership (db : ChatDB) (user_id conversation_id : Nat) :
    Except PyErr Conversation :=
  match get_conversation db user_id conversation_id with
  | some c => .ok c
  | none =>
    if conversation_exists db conversation_id then
      .error (.permissionError "Access denied to conversation")
    else
      .error (.valueError "Conversation not found")

/-- The `get_or_create_conversation` service, reached by `process_chat_message`
only with `conversation_id = None`, in which case it creates a fresh
conversation with no title. -/
def get_or_create_conversation (db : ChatDB) (user_id : Nat)
    (conversation_id : Option Nat) (newId now : Nat) : Except PyErr (ChatDB × Conversation) :=
  match conversation_id with
  | some cid =>
    match get_conversation db user_id cid with
    | some c => .ok (db, c)
    | none => .error (.valueError "Conversation not found or access denied")
  | none => .ok (create_conversation db user_id none newId now)

/-- The input item list handed to the agent: the loaded history followed by
the new user message. -/
def chat_agent_input (history : List Message) (message : String) : List InputMsg :=
  messages_to_input_list history ++ [⟨"user", message⟩]

/-- The `process_chat_message` orchestration (`chat_service.py`): resolve the
conversation, load history, persist the inbound user message, run the agent on
history plus the new message, extract the tool-call trace, persist the
assistant message, assemble the response.  Each step's committed writes
survive a later failure, hence the database is returned alongside the
`Except` outcome.  `newConvId` is the generated id when a conversation is
created and `now` the request's clock reading. -/
def process_chat_message (db : ChatDB) (user_id : Nat) (req : ChatRequest)
    (agent : AgentFun) (newConvId now : Nat) : ChatDB × Except PyErr ChatResponse :=
  let step1 : Except PyErr (ChatDB × Conversation) :=
    match req.conversation_id with
    | some cid => (verify_conversation_ownership db user_id cid).map (fun c => (db, c))
    | none => get_or_create_conversation db user_id none newConvId now
  match step1 with
  | .error e => (db, .error e)
  | .ok (db1, conv) =>
    let history := get_messages db1 conv.id
    match MessageCreate.validate "user" req.message with
    | .error e => (db1, .error e)
    | .ok mc =>
      let db2 := (add_message db1 conv.id mc now).1
      match agent (chat_agent_input history req.message) (toString user_id) with
      | .raises e => (db2, .error e)
      | .completes result =>
        let assistant_message := result.final_output.getD ""
        match extract_tool_calls result.new_items with
        | .error e => (db2, .error e)
        | .ok tool_calls =>
          match MessageCreate.validate "assistant" assistant_message with
          | .error e => (db2, .error e)
          | .ok mc2 =>
            let db3 := (add_message db2 conv.id mc2 now).1
            (db3, .ok ⟨conv.id, assistant_message, tool_calls, now⟩)

/-- HTTP outcome of the chat endpoint. -/
inductive HttpOutcome
| ok (resp : ChatResponse)
| fail (status : Nat) (detail : String)
deriving DecidableEq

/-- The exception-to-status mapping of `send_chat_message` (`api/chat.py`):
`ValueError` (including pydantic `ValidationError`) becomes 404,
`PermissionError` 403, `MaxTurnsExceeded` 504, OpenAI API errors 502 and
everything else 500. -/
def map_chat_error (e : PyErr) : HttpOutcome :=
  match e with
  | .valueError _ => .fail 404 "Conversation not found"
  | .permissionError _ => .fail 403 "Access denied"
  | .maxTurnsExceeded => .fail 504 "The assistant took too long to respond"
  | .apiError => .fail 502 "AI service temporarily unavailable"
  | .otherError => .fail 500 "An unexpected error occurred"

/-- The chat endpoint handler: verify that the authenticated identity matches
the path user id, then run the orchestration and map failures to statuses. -/
def send_chat_message (db : ChatDB) (jwt_user_id path_user_id : Nat)
    (req : ChatRequest) (agent : AgentFun) (newConvId now : Nat) : ChatDB × HttpOutcome :=
  if jwt_user_id != path_user_id then
    (db, .fail 403 "Access denied: Cannot access another user's resources")
  else
    match process_chat_message db path_user_id req agent newConvId now with
    | (db1, .ok r) => (db1, .ok r)
    | (db1, .error e) => (db1, map_chat_error e)

/-!
Model of `task_service.py` and the MCP task tools
(`mcp/tools/complete_task.py`, `update_task.py`, `delete_task.py`).
-/

/-- Task row (`src/models/task.py`). -/
structure Task where
  id : Nat
  user_id : Nat
  title : String
  description : Option String
  is_completed : Bool
  created_at : Nat
  updated_at : Nat
deriving DecidableEq

/-- Tasks table. -/
structure TaskDB where
  tasks : List Task
deriving DecidableEq

/-- The `get_task` service: select by id AND owner, first row or none. -/
def get_task (db : TaskDB) (user_id task_id : Nat) : Option Task :=
  db.tasks.find? (fun t => t.id == task_id && t.user_id == user_id)

/-- The in-place mutation performed by `toggle_complete`: flip the completion
flag and stamp `updated_at`. -/
def toggleTask (t : Task) (now : Nat) : Task :=
  ⟨t.id, t.user_id, t.title, t.description, !t.is_completed, t.created_at, now⟩

/-- The `toggle_complete` service: look the task up under the caller, flip its
flag and commit; primary keys are unique so updating every row with the
matching id and owner models the source's single-row update. -/
def toggle_complete (db : TaskDB) (user_id task_id now : Nat) : TaskDB × Option Task :=
  match get_task db user_id task_id with
  | none => (db, none)
  | some t =>
    let t1 := toggleTask t now
    (⟨db.tasks.map (fun u => if u.id == task_id && u.user_id == user_id then t1 else u)⟩,
     some t1)

/-- The update payload of the `update_task` service. -/
structure TaskUpdate where
  title : Option String
  description : Option String
deriving DecidableEq

/-- The field mutation performed by `update_task`: only provided fields are
written, and `updated_at` is stamped. -/
def applyUpdate (t : Task) (data : TaskUpdate) (now : Nat) : Task :=
  ⟨t.id, t.user_id, data.title.getD t.title,
   match data.description with
   | some d => some d
   | none => t.description,
   t.is_completed, t.created_at, now⟩

/-- The `update_task` service. -/
def update_task (db : TaskDB) (user_id task_id : Nat) (data : TaskUpdate)
    (now : Nat) : TaskDB × Option Task :=
  match get_task db user_id task_id with
  | none => (db, none)
  | some t =>
    let t1 := applyUpdate t data now
    (⟨db.tasks.map (fun u => if u.id == task_id && u.user_id == user_id then t1 else u)⟩,
     some t1)

/-- The `delete_task` service: hard delete of the owned row. -/
def delete_task (db : TaskDB) (user_id task_id : Nat) : TaskDB × Bool :=
  match get_task db user_id task_id with
  | none => (db, false)
  | some _ =>
    (⟨db.tasks.filter (fun u => !(u.id == task_id && u.user_id == user_id))⟩, true)

/-- Envelope returned by an MCP task tool: a full task projection, a delete
confirmation, or an error carrying only a code and a message — the error
constructor has no slot for any task field. -/
inductive ToolResult
| okTask (task_id user_id : Nat) (title : String) (description : Option String)
    (is_completed : Bool) (created_at updated_at : Nat)
| okDelete (task_id : Nat) (message : String)
| errorRes (code message : String)
deriving DecidableEq

/-- The `TaskNotFoundError` envelope (`mcp/errors.py`): deliberately the same
for a missing task and for a task owned by someone else. -/
def taskNotFoundMsg : String := "Task not found or access denied"

/-- Success projection of a task (`TaskOutput.from_task`). -/
def taskOutput (t : Task) : ToolResult :=
  .okTask t.id t.user_id t.title t.description t.is_completed t.created_at t.updated_at

/-- The `complete_task` MCP tool, after its UUID-format validation (ids are
already identifiers in this model): ownership-filtered lookup, the defensive
owner re-check (unreachable after the filtered lookup), then toggle. -/
def mcp_complete_task (db : TaskDB) (user_id task_id now : Nat) : TaskDB × ToolResult :=
  match get_task db user_id task_id with
  | none => (db, .errorRes "TASK_NOT_FOUND" taskNotFoundMsg)
  | some t =>
    if t.user_id != user_id then
      (db, .errorRes "AUTHORIZATION_ERROR" "Task belongs to different user")
    else
      match toggle_complete db user_id task_id now with
      | (db1, some t1) => (db1, taskOutput t1)
      | (db1, none) => (db1, .errorRes "TASK_NOT_FOUND" taskNotFoundMsg)

/-- Python's `str.strip`: drop leading and trailing whitespace (modelled over
the character list so that it evaluates in proofs by reduction). -/
def pyStrip (s : String) : String :=
  ⟨((s.data.dropWhile Char.isWhitespace).reverse.dropWhile Char.isWhitespace).reverse⟩

/-- Validation of an optional new title in `UpdateTaskInput`: when provided it
must be 1..200 characters and not whitespace-only. -/
def updateTitleOk (t : Option String) : Bool :=
  match t with
  | none => true
  | some s => decide (1 ≤ s.length) && decide (s.length ≤ 200) && (pyStrip s != "")

/-- Validation of an optional description (at most 1000 characters). -/
def descOk (d : Option String) : Bool :=
  match d with
  | none => true
  | some s => decide (s.length ≤ 1000)

/-- Whole-input validation of `UpdateTaskInput`: field checks plus the
at-least-one-field rule of `model_post_init`. -/
def updateInputOk (title description : Option String) : Bool :=
  updateTitleOk title && descOk description && (title.isSome || description.isSome)

/-- The `update_task` MCP tool: validate, ownership-filtered lookup, defensive
owner re-check, then the service update with the validator-stripped title. -/
def mcp_update_task (db : TaskDB) (user_id task_id : Nat)
    (title description : Option String) (now : Nat) : TaskDB × ToolResult :=
  if !updateInputOk title description then
    (db, .errorRes "VALIDATION_ERROR" "Invalid input parameters")
  else
    match get_task db user_id task_id with
    | none => (db, .errorRes "TASK_NOT_FOUND" taskNotFoundMsg)
    | some t =>
      if t.user_id != user_id then
        (db, .errorRes "AUTHORIZATION_ERROR" "Task belongs to different user")
      else
        match update_task db user_id task_id ⟨title.map pyStrip, description⟩ now with
        | (db1, some t1) => (db1, taskOutput t1)
        | (db1, none) => (db1, .errorRes "TASK_NOT_FOUND" taskNotFoundMsg)

/-- The `delete_task` MCP tool. -/
def mcp_delete_task (db : TaskDB) (user_id task_id : Nat) : TaskDB × ToolResult :=
  match get_task db user_id task_id with
  | none => (db, .errorRes "TASK_NOT_FOUND" taskNotFoundMsg)
  | some t =>
    if t.user_id != user_id then
      (db, .errorRes "AUTHORIZATION_ERROR" "Task belongs to different user")
    else
      match delete_task db user_id task_id with
      | (db1, true) => (db1, .okDelete task_id "Task deleted successfully")
      | (db1, false) => (db1, .errorRes "TASK_NOT_FOUND" taskNotFoundMsg)

/-!
Model of `reminder_service.py` and the `schedule_reminder` MCP tool.
Timestamps are integers in minutes, so that a `timedelta(minutes = i)`
advance is addition of `i`.
-/

/-- Reminder row (`src/models/reminder.py`), with its column defaults
`triggered_count = 0` and `is_active = True` applied at construction. -/
structure Reminder where
  id : Nat
  user_id : Nat
  task_id : Nat
  remind_at : Int
  repeat_interval_minutes : Option Int
  repeat_count : Option Int
  triggered_count : Int
  is_active : Bool
  created_at : Int
deriving DecidableEq

/-- Reminder-side database state: the tasks and reminders tables. -/
structure ReminderDB where
  tasks : List Task
  reminders : List Reminder
deriving DecidableEq

/-- The `ReminderCreate` payload (`src/schemas/reminder.py`). -/
structure ReminderCreate where
  task_id : Nat
  remind_at : Int
  repeat_interval_minutes : Option Int
  repeat_count : Option Int
deriving DecidableEq

/-- Ownership-filtered reminder lookup shared by `process_reminder` and
`delete_reminder`. -/
def findReminder (db : ReminderDB) (reminder_id user_id : Nat) : Option Reminder :=
  db.reminders.find? (fun r => r.id == reminder_id && r.user_id == user_id)

/-- The state transition of `process_reminder`: increment the trigger count;
when both repeat fields are set and the new count is still below the repeat
count, advance `remind_at` by the interval; otherwise deactivate. -/
def reminderStep (r : Reminder) : Reminder :=
  let tc := r.triggered_count + 1
  match r.repeat_interval_minutes, r.repeat_count with
  | some i, some c =>
    if tc < c then
      ⟨r.id, r.user_id, r.task_id, r.remind_at + i, some i, some c, tc, r.is_active,
       r.created_at⟩
    else
      ⟨r.id, r.user_id, r.task_id, r.remind_at, some i, some c, tc, false, r.created_at⟩
  | io, co => ⟨r.id, r.user_id, r.task_id, r.remind_at, io, co, tc, false, r.created_at⟩

/-- The `process_reminder` service: ownership-filtered lookup, then the state
transition, committed in place. -/
def process_reminder (db : ReminderDB) (reminder_id user_id : Nat) :
    ReminderDB × Option Reminder :=
  match findReminder db reminder_id user_id with
  | none => (db, none)
  | some r =>
    let r1 := reminderStep r
    (⟨db.tasks,
      db.reminders.map (fun u => if u.id == reminder_id && u.user_id == user_id then r1 else u)⟩,
     some r1)

/-- Iterated on-demand processing of one reminder. -/
def processN (db : ReminderDB) (reminder_id user_id : Nat) : Nat → ReminderDB
  | 0 => db
  | n + 1 => (process_reminder (processN db reminder_id user_id n) reminder_id user_id).1

/-- The `create_reminder` service: validate that the task exists and belongs
to the caller (else `ValueError`), then insert the reminder row with the
column defaults. -/
def create_reminder (db : ReminderDB) (user_id : Nat) (data : ReminderCreate)
    (newId : Nat) (now : Int) : ReminderDB × Except PyErr Reminder :=
  match db.tasks.find? (fun t => t.id == data.task_id && t.user_id == user_id) with
  | none => (db, .error (.valueError "Task not found or does not belong to user"))
  | some _ =>
    let r : Reminder := ⟨newId, user_id, data.task_id, data.remind_at,
      data.repeat_interval_minutes, data.repeat_count, 0, true, now⟩
    (⟨db.tasks, db.reminders ++ [r]⟩, .ok r)

/-- The `ScheduleReminderInput` payload after UUID and datetime parsing. -/
structure ScheduleReminderInput where
  user_id : Nat
  task_id : Nat
  remind_at : Int
  repeat_interval_minutes : Option Int
  repeat_count : Option Int
deriving DecidableEq

/-- Pydantic validation of `ScheduleReminderInput`: each repeat field is
checked independently when present (interval in 1..1440, count in 1..100);
there is no constraint tying the two fields together. -/
def ScheduleReminderInput.valid (d : ScheduleReminderInput) : Bool :=
  (match d.repeat_interval_minutes with
   | none => true
   | some i => decide (0 < i) && decide (i ≤ 1440)) &&
  (match d.repeat_count with
   | none => true
   | some c => decide (0 < c) && decide (c ≤ 100))

/-- The `schedule_reminder` MCP tool: pydantic validation (a failure is a
`ValueError`), then delegation to `create_reminder` with the fields copied
as given. -/
def mcp_schedule_reminder (db : ReminderDB) (inp : ScheduleReminderInput)
    (newId : Nat) (now : Int) : ReminderDB × Except PyErr Reminder :=
  if !inp.valid then
    (db, .error (.valueError "Invalid input parameters"))
  else
    create_reminder db inp.user_id
      ⟨inp.task_id, inp.remind_at, inp.repeat_interval_minutes, inp.repeat_count⟩ newId now

/-!
Model of the agent tool layer (`agent/tools.py`, `agent/context.py`): the six
function tools each receive the orchestration-supplied `UserContext` and their
declared parameters, and forward `ctx.user_id` to the MCP layer.
-/

/-- The `UserContext` dataclass: the authenticated user-id string fixed when
`run_agent_with_history` starts (its UUID-format validation is a library
call and is abstracted away). -/
structure UserContext where
  user_id : String
deriving DecidableEq

/-- Context construction inside `run_agent_with_history`: built once per run
from the authenticated user id. -/
def run_agent_context (user_id : String) : UserContext :=
  ⟨user_id⟩

/-- The declared parameter lists of the six function tools, one constructor
per tool.  Mirroring the source signatures, no constructor carries a user
identity. -/
inductive ToolArgs
| addTask (title : String) (description : Option String)
| listTasks
| completeTask (task_id : String)
| deleteTask (task_id : String)
| updateTask (task_id : String) (title description : Option String)
| scheduleReminder (task_id remind_at : String)
    (repeat_interval_minutes repeat_count : Option Int)
deriving DecidableEq

/-- The downstream MCP call issued by a tool implementation: target tool,
the user identity it was handed, and the forwarded parameters. -/
structure McpInvocation where
  tool : String
  user_id : String
  args : ToolArgs
deriving DecidableEq

/-- The `add_task_impl` dispatch to the MCP layer. -/
def add_task_impl (user_id title : String) (description : Option String) : McpInvocation :=
  ⟨"add_task", user_id, .addTask title description⟩

/-- The `list_tasks_impl` dispatch to the MCP layer. -/
def list_tasks_impl (user_id : String) : McpInvocation :=
  ⟨"list_tasks", user_id, .listTasks⟩

/-- The `complete_task_impl` dispatch to the MCP layer. -/
def complete_task_impl (user_id task_id : String) : McpInvocation :=
  ⟨"complete_task", user_id, .completeTask task_id⟩

/-- The `delete_task_impl` dispatch to the MCP layer. -/
def delete_task_impl (user_id task_id : String) : McpInvocation :=
  ⟨"delete_task", user_id, .deleteTask task_id⟩

/-- The `update_task_impl` dispatch to the MCP layer. -/
def update_task_impl (user_id task_id : String) (title description : Option String) :
    McpInvocation :=
  ⟨"update_task", user_id, .updateTask task_id title description⟩

/-- The `schedule_reminder_impl` dispatch to the MCP layer. -/
def schedule_reminder_impl (user_id task_id remind_at : String)
    (repeat_interval_minutes repeat_count : Option Int) : McpInvocation :=
  ⟨"schedule_reminder", user_id,
   .scheduleReminder task_id remind_at repeat_interval_minutes repeat_count⟩

/-- One function-tool invocation during a run: each decorated tool reads the
identity from `ctx` and hands its declared parameters to the matching
implementation function. -/
def invokeTool (ctx : UserContext) (args : ToolArgs) : McpInvocation :=
  match args with
  | .addTask title description => add_task_impl ctx.user_id title description
  | .listTasks => list_tasks_impl ctx.user_id
  | .completeTask task_id => complete_task_impl ctx.user_id task_id
  | .deleteTask task_id => delete_task_impl ctx.user_id task_id
  | .updateTask task_id title description =>
    update_task_impl ctx.user_id task_id title description
  | .scheduleReminder task_id remind_at i c =>
    schedule_reminder_impl ctx.user_id task_id remind_at i c

/-!
Helper lemmas about the ownership-filtered lookups.
-/

/-- Updating every row matched by a predicate with a row that itself matches
commutes with `find?`: the lookup afterwards yields the replacement exactly
when the lookup before succeeded. -/
theorem find?_map_update {α : Type} (p : α → Bool) (t1 : α) (h1 : p t1 = true) :
    ∀ l : List α, (l.map (fun u => if p u then t1 else u)).find? p
      = if (l.find? p).isSome then some t1 else none
  | [] => rfl
  | x :: l => by
    by_cases hx : p x = true
    · simp [List.find?_cons_of_pos, hx, h1]
    · have hx' : ¬ p x := by simp [hx]
      simp only [List.map_cons, if_neg hx', List.find?_cons_of_neg _ hx',
        List.find?_cons_of_neg _ hx']
      exact find?_map_update p t1 h1 l

/-- A successful `toggle_complete` commits the flipped row, and the follow-up
ownership-filtered lookup retrieves exactly that row. -/
theorem get_task_toggle (db : TaskDB) (uid tid now : Nat) (t : Task)
    (h : get_task db uid tid = some t) :
    (toggle_complete db uid tid now).2 = some (toggleTask t now)
    ∧ get_task (toggle_complete db uid tid now).1 uid tid = some (toggleTask t now) := by
  have h0 : db.tasks.find? (fun u => u.id == tid && u.user_id == uid) = some t := h
  have hpt := List.find?_some h0
  have hp1 : ((toggleTask t now).id == tid && (toggleTask t now).user_id == uid) = true := by
    simpa [toggleTask] using hpt
  have hmap := find?_map_update (fun u => u.id == tid && u.user_id == uid)
    (toggleTask t now) hp1 db.tasks
  have e : toggle_complete db uid tid now
      = (⟨db.tasks.map (fun u => if u.id == tid && u.user_id == uid then toggleTask t now
            else u)⟩,
         some (toggleTask t now)) := by
    simp only [toggle_complete, h]
  constructor
  · rw [e]
  · rw [e]
    exact hmap.trans (by rw [h0]; rfl)

/-- C7: for every task owned by the calling user, `toggle_complete` is an
involution on the completion flag: one application always succeeds (whatever
the current flag), flips the boolean and stamps the update timestamp; two
applications restore the original completion value; three applications agree
with one. -/
theorem C7_toggle_involution (db : TaskDB) (uid tid n1 n2 n3 : Nat) (t : Task)
    (h : get_task db uid tid = some t) :
    (toggle_complete db uid tid n1).2 = some (toggleTask t n1)
    ∧ (toggleTask t n1).is_completed = !t.is_completed
    ∧ (toggleTask t n1).updated_at = n1
    ∧ (toggle_complete (toggle_complete db uid tid n1).1 uid tid n2).2
        = some (toggleTask (toggleTask t n1) n2)
    ∧ (toggleTask (toggleTask t n1) n2).is_completed = t.is_completed
    ∧ (toggle_complete (toggle_complete (toggle_complete db uid tid n1).1 uid tid n2).1
        uid tid n3).2
        = some (toggleTask (toggleTask (toggleTask t n1) n2) n3)
    ∧ (toggleTask (toggleTask (toggleTask t n1) n2) n3).is_completed
        = (toggleTask t n1).is_completed := by
  obtain ⟨e1, f1⟩ := get_task_toggle db uid tid n1 t h
  obtain ⟨e2, f2⟩ := get_task_toggle _ uid tid n2 _ f1
  obtain ⟨e3, _⟩ := get_task_toggle _ uid tid n3 _ f2
  exact ⟨e1, rfl, rfl, e2, by simp [toggleTask], e3, by simp [toggleTask]⟩

/-- Example task owned by user 7, initially incomplete. -/
def exTask : Task := ⟨3, 7, "Buy milk", none, false, 10, 10⟩

/-- Example tasks table holding only `exTask`. -/
def exTaskDB : TaskDB := ⟨[exTask]⟩

/-- Witness for C7 on the concrete one-task table. -/
theorem C7_toggle_involution_witness :
    (toggle_complete exTaskDB 7 3 11).2 = some (toggleTask exTask 11)
    ∧ (toggleTask exTask 11).is_completed = !exTask.is_completed
    ∧ (toggleTask exTask 11).updated_at = 11
    ∧ (toggle_complete (toggle_complete exTaskDB 7 3 11).1 7 3 12).2
        = some (toggleTask (toggleTask exTask 11) 12)
    ∧ (toggleTask (toggleTask exTask 11) 12).is_completed = exTask.is_completed
    ∧ (toggle_complete (toggle_complete (toggle_complete exTaskDB 7 3 11).1 7 3 12).1
        7 3 13).2
        = some (toggleTask (toggleTask (toggleTask exTask 11) 12) 13)
    ∧ (toggleTask (toggleTask (toggleTask exTask 11) 12) 13).is_completed
        = (toggleTask exTask 11).is_completed :=
  C7_toggle_involution exTaskDB 7 3 11 12 13 exTask rfl

/-- C4: when no task with the probed id belongs to caller `a` — which covers
both a task owned by any other user `b ≠ a` and a wholly absent task id — the
three task-targeting MCP tools return the identical `TASK_NOT_FOUND` envelope
(whose constructor carries only a code and a message, never task fields) and
leave the table unchanged, so cross-tenant probing is indistinguishable from
task absence. -/
theorem C4_cross_tenant_indistinguishable (db : TaskDB) (a tid now : Nat)
    (title description : Option String)
    (hv : updateInputOk title description = true)
    (h : ∀ t ∈ db.tasks, t.id = tid → t.user_id ≠ a) :
    mcp_complete_task db a tid now = (db, .errorRes "TASK_NOT_FOUND" taskNotFoundMsg)
    ∧ mcp_update_task db a tid title description now
        = (db, .errorRes "TASK_NOT_FOUND" taskNotFoundMsg)
    ∧ mcp_delete_task db a tid = (db, .errorRes "TASK_NOT_FOUND" taskNotFoundMsg) := by
  have hnone : get_task db a tid = none := by
    apply List.find?_eq_none.2
    intro x hx
    simp only [Bool.and_eq_true, beq_iff_eq, not_and]
    intro h1 h2
    exact h x hx h1 h2
  refine ⟨?_, ?_, ?_⟩
  · simp [mcp_complete_task, hnone]
  · simp [mcp_update_task, hv, hnone]
  · simp [mcp_delete_task, hnone]

/-- Example table where task 3 belongs to user 8: probing it as user 7 is the
cross-tenant scenario of C4. -/
def exOtherTaskDB : TaskDB := ⟨[⟨3, 8, "Buy milk", none, false, 10, 10⟩]⟩

/-- Witness for C4: user 7 probing user 8's task 3 receives the bare
`TASK_NOT_FOUND` envelope from all three tools. -/
theorem C4_cross_tenant_indistinguishable_witness :
    mcp_complete_task exOtherTaskDB 7 3 11
        = (exOtherTaskDB, .errorRes "TASK_NOT_FOUND" taskNotFoundMsg)
    ∧ mcp_update_task exOtherTaskDB 7 3 (some "New title") none 11
        = (exOtherTaskDB, .errorRes "TASK_NOT_FOUND" taskNotFoundMsg)
    ∧ mcp_delete_task exOtherTaskDB 7 3
        = (exOtherTaskDB, .errorRes "TASK_NOT_FOUND" taskNotFoundMsg) :=
  C4_cross_tenant_indistinguishable exOtherTaskDB 7 3 11 (some "New title") none
    (by decide) (by decide)

/-- C5: the user identity reaching the MCP layer through any of the six
function tools is exactly the identity in the orchestration-supplied
`UserContext`, fixed when the agent run starts; no tool parameter list carries
an identity, so the invoked user never varies with the arguments the
reasoning oracle chooses. -/
theorem C5_identity_capsule (uid : String) (ctx : UserContext) (args args2 : ToolArgs) :
    (invokeTool (run_agent_context uid) args).user_id = uid
    ∧ (invokeTool ctx args).user_id = ctx.user_id
    ∧ (invokeTool ctx args).user_id = (invokeTool ctx args2).user_id := by
  refine ⟨?_, ?_, ?_⟩ <;> cases args <;> cases args2 <;> rfl

/-!
Reminder lifecycle lemmas (C8) and the repeat-field claims (C9).
-/

/-- The reminder transition keeps the id and the owner. -/
theorem reminderStep_id (r : Reminder) :
    (reminderStep r).id = r.id ∧ (reminderStep r).user_id = r.user_id := by
  unfold reminderStep
  cases r.repeat_interval_minutes <;> cases r.repeat_count <;> dsimp <;>
    first
    | exact ⟨rfl, rfl⟩
    | (split <;> exact ⟨rfl, rfl⟩)

/-- A successful `process_reminder` commits the stepped row, and the follow-up
ownership-filtered lookup retrieves exactly that row. -/
theorem findReminder_process (db : ReminderDB) (rid uid : Nat) (r : Reminder)
    (h : findReminder db rid uid = some r) :
    (process_reminder db rid uid).2 = some (reminderStep r)
    ∧ findReminder (process_reminder db rid uid).1 rid uid = some (reminderStep r) := by
  have h0 : db.reminders.find? (fun u => u.id == rid && u.user_id == uid) = some r := h
  have hpt := List.find?_some h0
  have hp1 : ((reminderStep r).id == rid && (reminderStep r).user_id == uid) = true := by
    obtain ⟨e1, e2⟩ := reminderStep_id r
    rw [e1, e2]
    exact hpt
  have hmap := find?_map_update (fun u => u.id == rid && u.user_id == uid)
    (reminderStep r) hp1 db.reminders
  have e : process_reminder db rid uid
      = (⟨db.tasks,
          db.reminders.map (fun u => if u.id == rid && u.user_id == uid then reminderStep r
            else u)⟩,
         some (reminderStep r)) := by
    simp only [process_reminder, h]
  constructor
  · rw [e]
  · rw [e]
    exact hmap.trans (by rw [h0]; rfl)

/-- C8: scheduling a reminder with interval 60 and repeat count 5 on a
caller-owned task creates it active with trigger count 0; each of the first
four process transitions increments the count, advances `remind_at` by 60
minutes and keeps it active; the fifth transition increments the count to 5
and deactivates it. -/
theorem C8_reminder_lifecycle (db : ReminderDB) (uid tid newId : Nat) (remindAt now : Int)
    (htask : (db.tasks.find? (fun t => t.id == tid && t.user_id == uid)).isSome = true)
    (hfresh : ∀ r ∈ db.reminders, r.id ≠ newId) :
    (create_reminder db uid ⟨tid, remindAt, some 60, some 5⟩ newId now).2
        = .ok ⟨newId, uid, tid, remindAt, some 60, some 5, 0, true, now⟩
    ∧ findReminder
          (processN (create_reminder db uid ⟨tid, remindAt, some 60, some 5⟩ newId now).1
            newId uid 1) newId uid
        = some ⟨newId, uid, tid, remindAt + 60, some 60, some 5, 1, true, now⟩
    ∧ findReminder
          (processN (create_reminder db uid ⟨tid, remindAt, some 60, some 5⟩ newId now).1
            newId uid 2) newId uid
        = some ⟨newId, uid, tid, remindAt + 120, some 60, some 5, 2, true, now⟩
    ∧ findReminder
          (processN (create_reminder db uid ⟨tid, remindAt, some 60, some 5⟩ newId now).1
            newId uid 3) newId uid
        = some ⟨newId, uid, tid, remindAt + 180, some 60, some 5, 3, true, now⟩
    ∧ findReminder
          (processN (create_reminder db uid ⟨tid, remindAt, some 60, some 5⟩ newId now).1
            newId uid 4) newId uid
        = some ⟨newId, uid, tid, remindAt + 240, some 60, some 5, 4, true, now⟩
    ∧ findReminder
          (processN (create_reminder db uid ⟨tid, remindAt, some 60, some 5⟩ newId now).1
            newId uid 5) newId uid
        = some ⟨newId, uid, tid, remindAt + 240, some 60, some 5, 5, false, now⟩ := by
  obtain ⟨tsk, htsk⟩ := Option.isSome_iff_exists.1 htask
  have hcreate : create_reminder db uid ⟨tid, remindAt, some 60, some 5⟩ newId now
      = (⟨db.tasks,
          db.reminders ++ [⟨newId, uid, tid, remindAt, some 60, some 5, 0, true, now⟩]⟩,
         .ok ⟨newId, uid, tid, remindAt, some 60, some 5, 0, true, now⟩) := by
    simp only [create_reminder, htsk]
  have hfind0 : findReminder (create_reminder db uid ⟨tid, remindAt, some 60, some 5⟩
        newId now).1 newId uid
      = some ⟨newId, uid, tid, remindAt, some 60, some 5, 0, true, now⟩ := by
    rw [hcreate]
    show (db.reminders ++ [_]).find? _ = _
    rw [List.find?_append]
    have : db.reminders.find? (fun u => u.id == newId && u.user_id == uid) = none := by
      apply List.find?_eq_none.2
      intro x hx
      simp only [Bool.and_eq_true, beq_iff_eq, not_and]
      intro h1 _
      exact absurd h1 (hfresh x hx)
    rw [this]
    simp [List.find?]
  have hs1 : reminderStep ⟨newId, uid, tid, remindAt, some 60, some 5, 0, true, now⟩
      = ⟨newId, uid, tid, remindAt + 60, some 60, some 5, 1, true, now⟩ := by
    norm_num [reminderStep]
  have hs2 : reminderStep ⟨newId, uid, tid, remindAt + 60, some 60, some 5, 1, true, now⟩
      = ⟨newId, uid, tid, remindAt + 120, some 60, some 5, 2, true, now⟩ := by
    norm_num [reminderStep]
    ring
  have hs3 : reminderStep ⟨newId, uid, tid, remindAt + 120, some 60, some 5, 2, true, now⟩
      = ⟨newId, uid, tid, remindAt + 180, some 60, some 5, 3, true, now⟩ := by
    norm_num [reminderStep]
    ring
  have hs4 : reminderStep ⟨newId, uid, tid, remindAt + 180, some 60, some 5, 3, true, now⟩
      = ⟨newId, uid, tid, remindAt + 240, some 60, some 5, 4, true, now⟩ := by
    norm_num [reminderStep]
    ring
  have hs5 : reminderStep ⟨newId, uid, tid, remindAt + 240, some 60, some 5, 4, true, now⟩
      = ⟨newId, uid, tid, remindAt + 240, some 60, some 5, 5, false, now⟩ := by
    norm_num [reminderStep]
  obtain ⟨_, hf1⟩ := findReminder_process _ newId uid _ hfind0
  rw [hs1] at hf1
  obtain ⟨_, hf2⟩ := findReminder_process _ newId uid _ hf1
  rw [hs2] at hf2
  obtain ⟨_, hf3⟩ := findReminder_process _ newId uid _ hf2
  rw [hs3] at hf3
  obtain ⟨_, hf4⟩ := findReminder_process _ newId uid _ hf3
  rw [hs4] at hf4
  obtain ⟨_, hf5⟩ := findReminder_process _ newId uid _ hf4
  rw [hs5] at hf5
  refine ⟨by rw [hcreate], hf1, hf2, hf3, hf4, hf5⟩

/-- Example reminder-side database: one task (id 3) owned by user 7, no
reminders yet. -/
def exRemTaskDB : ReminderDB := ⟨[⟨3, 7, "Buy milk", none, false, 10, 10⟩], []⟩

/-- Witness for C8 on the concrete one-task database. -/
theorem C8_reminder_lifecycle_witness :
    (create_reminder exRemTaskDB 7 ⟨3, 1000, some 60, some 5⟩ 1 900).2
        = .ok ⟨1, 7, 3, 1000, some 60, some 5, 0, true, 900⟩
    ∧ findReminder
          (processN (create_reminder exRemTaskDB 7 ⟨3, 1000, some 60, some 5⟩ 1 900).1 1 7 1) 1 7
        = some ⟨1, 7, 3, 1060, some 60, some 5, 1, true, 900⟩
    ∧ findReminder
          (processN (create_reminder exRemTaskDB 7 ⟨3, 1000, some 60, some 5⟩ 1 900).1 1 7 2) 1 7
        = some ⟨1, 7, 3, 1120, some 60, some 5, 2, true, 900⟩
    ∧ findReminder
          (processN (create_reminder exRemTaskDB 7 ⟨3, 1000, some 60, some 5⟩ 1 900).1 1 7 3) 1 7
        = some ⟨1, 7, 3, 1180, some 60, some 5, 3, true, 900⟩
    ∧ findReminder
          (processN (create_reminder exRemTaskDB 7 ⟨3, 1000, some 60, some 5⟩ 1 900).1 1 7 4) 1 7
        = some ⟨1, 7, 3, 1240, some 60, some 5, 4, true, 900⟩
    ∧ findReminder
          (processN (create_reminder exRemTaskDB 7 ⟨3, 1000, some 60, some 5⟩ 1 900).1 1 7 5) 1 7
        = some ⟨1, 7, 3, 1240, some 60, some 5, 5, false, 900⟩ := by
  have h := C8_reminder_lifecycle exRemTaskDB 7 3 1 1000 900 (by decide) (by decide)
  norm_num at h ⊢
  exact h

/-- C9 counterexample: the schedule-reminder validation accepts an input with
`repeat_interval_minutes = 60` and `repeat_count` unset, and the created
reminder carries exactly that mismatched pair — refuting the claim that every
accepted reminder has both repeat fields present or both absent. -/
theorem C9_counterexample :
    ScheduleReminderInput.valid ⟨7, 3, 1000, some 60, none⟩ = true
    ∧ (mcp_schedule_reminder exRemTaskDB ⟨7, 3, 1000, some 60, none⟩ 1 900).2
        = .ok ⟨1, 7, 3, 1000, some 60, none, 0, true, 900⟩
    ∧ (some (60 : Int)).isSome = true
    ∧ (none : Option Int).isSome = false :=
  ⟨rfl, rfl, rfl, rfl⟩

/-- C9 amended: the repeat fields are independently optional; validation only
checks each field's range when that field is present (interval in 1..1440,
count in 1..100) and the created reminder copies both fields as given, so a
reminder may be created with exactly one repeat field set. -/
theorem C9_repeat_fields_independent (db : ReminderDB) (inp : ScheduleReminderInput)
    (newId : Nat) (now : Int) (r : Reminder)
    (h : inp.valid = true)
    (hok : (mcp_schedule_reminder db inp newId now).2 = .ok r) :
    r.repeat_interval_minutes = inp.repeat_interval_minutes
    ∧ r.repeat_count = inp.repeat_count
    ∧ (∀ i, inp.repeat_interval_minutes = some i → 0 < i ∧ i ≤ 1440)
    ∧ (∀ c, inp.repeat_count = some c → 0 < c ∧ c ≤ 100) := by
  simp only [mcp_schedule_reminder, h, Bool.not_true, Bool.false_eq_true, if_false] at hok
  unfold create_reminder at hok
  cases hf : db.tasks.find? (fun t => t.id == inp.task_id && t.user_id == inp.user_id) with
  | none => rw [hf] at hok; exact absurd hok (by simp)
  | some tsk =>
    rw [hf] at hok
    simp only [Except.ok.injEq] at hok
    refine ⟨by rw [← hok], by rw [← hok], ?_, ?_⟩
    · intro i hi
      unfold ScheduleReminderInput.valid at h
      rw [hi] at h
      simp only [Bool.and_eq_true, decide_eq_true_eq] at h
      exact h.1
    · intro c hc
      unfold ScheduleReminderInput.valid at h
      rw [hc] at h
      simp only [Bool.and_eq_true, decide_eq_true_eq] at h
      exact h.2

/-- Witness for C9 amended: an input with both repeat fields present. -/
theorem C9_repeat_fields_independent_witness :
    (⟨1, 7, 3, 1000, some 30, some 10, 0, true, 900⟩ : Reminder).repeat_interval_minutes
        = (⟨7, 3, 1000, some 30, some 10⟩ : ScheduleReminderInput).repeat_interval_minutes
    ∧ (⟨1, 7, 3, 1000, some 30, some 10, 0, true, 900⟩ : Reminder).repeat_count
        = (⟨7, 3, 1000, some 30, some 10⟩ : ScheduleReminderInput).repeat_count
    ∧ (∀ i, (⟨7, 3, 1000, some 30, some 10⟩ : ScheduleReminderInput).repeat_interval_minutes
          = some i → 0 < i ∧ i ≤ 1440)
    ∧ (∀ c, (⟨7, 3, 1000, some 30, some 10⟩ : ScheduleReminderInput).repeat_count
          = some c → 0 < c ∧ c ≤ 100) :=
  C9_repeat_fields_independent exRemTaskDB ⟨7, 3, 1000, some 30, some 10⟩ 1 900
    ⟨1, 7, 3, 1000, some 30, some 10, 0, true, 900⟩ (by decide) rfl

/-!
History-fidelity lemmas (C2).
-/

/-- Inserting an element that dominates a trailing maximal element keeps that
element last. -/
theorem orderedInsert_append_last (a x : Message) (hxa : msgLe x a) :
    ∀ s : List Message, List.orderedInsert msgLe x (s ++ [a])
      = List.orderedInsert msgLe x s ++ [a]
  | [] => by
    simp [List.orderedInsert, hxa]
  | b :: s => by
    by_cases hb : msgLe x b
    · simp [List.orderedInsert, hb]
    · simp only [List.cons_append, List.orderedInsert, if_neg hb, List.append_eq]
      rw [orderedInsert_append_last a x hxa s]

/-- Sorting a list whose final element dominates all others keeps that element
last and sorts the rest. -/
theorem insertionSort_append_last (a : Message) :
    ∀ l : List Message, (∀ x ∈ l, msgLe x a) →
      List.insertionSort msgLe (l ++ [a]) = List.insertionSort msgLe l ++ [a]
  | [], _ => rfl
  | x :: l, h => by
    have hx : msgLe x a := h x (List.mem_cons_self x l)
    have hl := insertionSort_append_last a l (fun y hy => h y (List.mem_cons_of_mem _ hy))
    simp only [List.cons_append, List.insertionSort, List.append_eq, hl]
    exact orderedInsert_append_last a x hx (List.insertionSort msgLe l)

/-- C2: for a conversation with N prior messages, the history load returns
exactly those N messages (a permutation of the conversation's rows, hence the
same length) in ascending creation order; the input handed to the agent is
precisely the loaded history followed by the new user message; persisting the
inbound message under a current timestamp makes it message N+1 of the next
load; and `process_chat_message` consults the agent only on that exact input,
so two oracles agreeing there produce identical chat outcomes. -/
theorem C2_history_fidelity (db : ChatDB) (cid : Nat) (message : String) (now : Nat)
    (hfresh : ∀ m ∈ db.messages, m.conversation_id = cid → m.created_at ≤ now) :
    (get_messages db cid).Perm (db.messages.filter (fun m => m.conversation_id == cid))
    ∧ (get_messages db cid).length
        = (db.messages.filter (fun m => m.conversation_id == cid)).length
    ∧ List.Sorted msgLe (get_messages db cid)
    ∧ chat_agent_input (get_messages db cid) message
        = messages_to_input_list (get_messages db cid) ++ [⟨"user", message⟩]
    ∧ get_messages (add_message db cid ⟨"user", message⟩ now).1 cid
        = get_messages db cid ++ [⟨cid, "user", message, now⟩]
    ∧ (∀ (uid newId : Nat) (req : ChatRequest) (conv : Conversation) (agent1 agent2 : AgentFun),
        req.message = message → req.conversation_id = some cid →
        verify_conversation_ownership db uid cid = .ok conv →
        agent1 (chat_agent_input (get_messages db conv.id) req.message) (toString uid)
          = agent2 (chat_agent_input (get_messages db conv.id) req.message) (toString uid) →
        process_chat_message db uid req agent1 newId now
          = process_chat_message db uid req agent2 newId now) := by
  refine ⟨List.perm_insertionSort msgLe _, ?_, List.sorted_insertionSort msgLe _, rfl, ?_, ?_⟩
  · exact (List.perm_insertionSort msgLe _).length_eq
  · have hmsgs : (add_message db cid ⟨"user", message⟩ now).1.messages
        = db.messages ++ [⟨cid, "user", message, now⟩] := rfl
    have hfilter : (db.messages ++ [(⟨cid, "user", message, now⟩ : Message)]).filter
          (fun m => m.conversation_id == cid)
        = db.messages.filter (fun m => m.conversation_id == cid)
          ++ [⟨cid, "user", message, now⟩] := by
      rw [List.filter_append]
      simp [List.filter]
    unfold get_messages
    rw [hmsgs, hfilter]
    exact insertionSort_append_last _ _ (fun x hx => by
      have hmem := List.mem_of_mem_filter hx
      have hcid : x.conversation_id = cid := by
        have := List.of_mem_filter hx
        simpa using this
      exact hfresh x hmem hcid)
  · intro uid newId req conv agent1 agent2 hmsg hcid hown hagree
    cases hval : MessageCreate.validate "user" req.message with
    | error e =>
      simp [process_chat_message, hcid, hown, hval]
    | ok mc =>
      simp only [process_chat_message, hcid, hown, hval, Except.map]
      rw [hagree]

/-- Example database for the C2 witness: conversation 1 of user 7 with two
prior messages (timestamps 1 and 2). -/
def exHistDB : ChatDB :=
  ⟨[⟨1, 7, none, 0, 2⟩],
   [⟨1, "user", "Add a task", 1⟩, ⟨1, "assistant", "Created task", 2⟩]⟩

/-- Witness for C2: the two prior messages are loaded in order and the
persisted inbound message becomes message 3. -/
theorem C2_history_fidelity_witness :
    (get_messages exHistDB 1).length
        = (exHistDB.messages.filter (fun m => m.conversation_id == 1)).length
    ∧ get_messages (add_message exHistDB 1 ⟨"user", "What tasks do I have?"⟩ 3).1 1
        = get_messages exHistDB 1 ++ [⟨1, "user", "What tasks do I have?", 3⟩] :=
  ⟨(C2_history_fidelity exHistDB 1 "What tasks do I have?" 3 (by decide)).2.1,
   (C2_history_fidelity exHistDB 1 "What tasks do I have?" 3 (by decide)).2.2.2.2.1⟩

/-!
Write-ordering lemmas (C1, C3, C10).
-/

/-- A message-validation success for an in-range content under an accepted
role literal. -/
theorem validate_ok (role m : String) (hr : validRole role = true)
    (h1 : (decide (1 ≤ m.length) && decide (m.length ≤ 50000)) = true) :
    MessageCreate.validate role m = .ok ⟨role, m⟩ := by
  unfold MessageCreate.validate
  rw [hr, h1]
  rfl

/-- A message-validation failure for an out-of-range content. -/
theorem validate_fail (role m : String)
    (h : ¬(1 ≤ m.length ∧ m.length ≤ 50000)) :
    MessageCreate.validate role m = .error (.valueError msgCreateValidationMsg) := by
  unfold MessageCreate.validate
  rw [if_neg]
  intro hc
  simp only [Bool.and_eq_true, decide_eq_true_eq] at hc
  exact h hc.2

/-- The freshly appended message row is in the committed table. -/
theorem mem_add_message_self (db : ChatDB) (cid : Nat) (data : MessageCreate) (now : Nat) :
    (⟨cid, data.role, data.content, now⟩ : Message) ∈ (add_message db cid data now).1.messages := by
  show _ ∈ db.messages ++ [_]
  simp

/-- Appending a message preserves previously committed rows. -/
theorem mem_add_message_of_mem (db : ChatDB) (cid : Nat) (data : MessageCreate) (now : Nat)
    (m : Message) (h : m ∈ db.messages) : m ∈ (add_message db cid data now).1.messages := by
  show _ ∈ db.messages ++ [_]
  exact List.mem_append_left _ h

/-- A successful ownership verification returns the conversation found under
the caller's filter, so its id and owner match the request. -/
theorem verify_ok_facts (db : ChatDB) (uid cid : Nat) (conv : Conversation)
    (h : verify_conversation_ownership db uid cid = .ok conv) :
    get_conversation db uid cid = some conv ∧ conv.id = cid ∧ conv.user_id = uid := by
  unfold verify_conversation_ownership at h
  cases hg : get_conversation db uid cid with
  | none =>
    rw [hg] at h
    by_cases hex : conversation_exists db cid = true
    · rw [if_pos hex] at h
      exact Except.noConfusion h
    · rw [if_neg hex] at h
      exact Except.noConfusion h
  | some c =>
    rw [hg] at h
    simp only [Except.ok.injEq] at h
    subst h
    have hg1 : db.conversations.find? (fun u => u.id == cid && u.user_id == uid) = some c := hg
    have hp := List.find?_some hg1
    simp only [Bool.and_eq_true, beq_iff_eq] at hp
    exact ⟨rfl, hp.1, hp.2⟩

/-- Reduction of `process_chat_message` when the resolved agent phase raises:
the committed state is exactly the inbound-only one. -/
theorem process_resolved_raises (db : ChatDB) (uid cid newId now : Nat)
    (req : ChatRequest) (agent : AgentFun) (conv : Conversation) (e : PyErr)
    (hcid : req.conversation_id = some cid)
    (hown : verify_conversation_ownership db uid cid = .ok conv)
    (hval : MessageCreate.validate "user" req.message = .ok ⟨"user", req.message⟩)
    (hres : agent (chat_agent_input (get_messages db conv.id) req.message) (toString uid)
        = .raises e) :
    process_chat_message db uid req agent newId now
      = ((add_message db conv.id ⟨"user", req.message⟩ now).1, .error e) := by
  simp only [process_chat_message, hcid, hown, hval, Except.map, hres]

/-- Reduction of `process_chat_message` when the agent completes but the trace
extraction raises: the exception escapes with only the inbound committed. -/
theorem process_resolved_extract_error (db : ChatDB) (uid cid newId now : Nat)
    (req : ChatRequest) (agent : AgentFun) (conv : Conversation)
    (result : RunResult) (e : PyErr)
    (hcid : req.conversation_id = some cid)
    (hown : verify_conversation_ownership db uid cid = .ok conv)
    (hval : MessageCreate.validate "user" req.message = .ok ⟨"user", req.message⟩)
    (hres : agent (chat_agent_input (get_messages db conv.id) req.message) (toString uid)
        = .completes result)
    (hext : extract_tool_calls result.new_items = .error e) :
    process_chat_message db uid req agent newId now
      = ((add_message db conv.id ⟨"user", req.message⟩ now).1, .error e) := by
  simp only [process_chat_message, hcid, hown, hval, Except.map, hres, hext]

/-- Reduction of `process_chat_message` when the agent completes but the
assistant text fails message validation: the `ValueError` escapes with only
the inbound committed. -/
theorem process_resolved_validate_error (db : ChatDB) (uid cid newId now : Nat)
    (req : ChatRequest) (agent : AgentFun) (conv : Conversation)
    (result : RunResult) (tool_calls : List ToolCall) (e : PyErr)
    (hcid : req.conversation_id = some cid)
    (hown : verify_conversation_ownership db uid cid = .ok conv)
    (hval : MessageCreate.validate "user" req.message = .ok ⟨"user", req.message⟩)
    (hres : agent (chat_agent_input (get_messages db conv.id) req.message) (toString uid)
        = .completes result)
    (hext : extract_tool_calls result.new_items = .ok tool_calls)
    (hva : MessageCreate.validate "assistant" (result.final_output.getD "") = .error e) :
    process_chat_message db uid req agent newId now
      = ((add_message db conv.id ⟨"user", req.message⟩ now).1, .error e) := by
  simp only [process_chat_message, hcid, hown, hval, Except.map, hres, hext, hva]

/-- Reduction of `process_chat_message` on the fully successful path: the
assistant message is committed after the inbound one. -/
theorem process_resolved_success (db : ChatDB) (uid cid newId now : Nat)
    (req : ChatRequest) (agent : AgentFun) (conv : Conversation)
    (result : RunResult) (tool_calls : List ToolCall) (mc2 : MessageCreate)
    (hcid : req.conversation_id = some cid)
    (hown : verify_conversation_ownership db uid cid = .ok conv)
    (hval : MessageCreate.validate "user" req.message = .ok ⟨"user", req.message⟩)
    (hres : agent (chat_agent_input (get_messages db conv.id) req.message) (toString uid)
        = .completes result)
    (hext : extract_tool_calls result.new_items = .ok tool_calls)
    (hva : MessageCreate.validate "assistant" (result.final_output.getD "") = .ok mc2) :
    process_chat_message db uid req agent newId now
      = ((add_message (add_message db conv.id ⟨"user", req.message⟩ now).1 conv.id mc2 now).1,
         .ok ⟨conv.id, result.final_output.getD "", tool_calls, now⟩) := by
  simp only [process_chat_message, hcid, hown, hval, Except.map, hres, hext, hva]

/-- Example conversation: id 1, owned by user 7, empty so far. -/
def exConv : Conversation := ⟨1, 7, none, 0, 0⟩

/-- Example chat database holding only `exConv` and no messages. -/
def exConvDB : ChatDB := ⟨[exConv], []⟩

/-- Oracle that always raises `MaxTurnsExceeded`. -/
def exAgentRaise : AgentFun := fun _ _ => .raises .maxTurnsExceeded

/-- Oracle that completes with an empty final output and no items. -/
def exAgentEmpty : AgentFun := fun _ _ => .completes ⟨some "", []⟩

/-- C1 counterexample: a conversation owned by user 7, an agent phase that
COMPLETES with an empty final output — yet the chat outcome is an error and
the committed table holds only the inbound user message, no assistant
message, refuting "the outbound assistant message is appended if and only if
the agent phase completes". -/
theorem C1_counterexample :
    exAgentEmpty (chat_agent_input (get_messages exConvDB 1) "hello") "7"
        = .completes ⟨some "", []⟩
    ∧ exceptOk (process_chat_message exConvDB 7 ⟨"hello", some 1⟩ exAgentEmpty 99 5).2 = false
    ∧ (process_chat_message exConvDB 7 ⟨"hello", some 1⟩ exAgentEmpty 99 5).1.messages
        = [⟨1, "user", "hello", 5⟩] :=
  ⟨rfl, rfl, rfl⟩

/-- C1 amended: for a chat on an owned conversation with a valid request, the
inbound user message is committed whatever the agent phase does; if the agent
phase raises, the outcome is exactly the inbound-only state plus the error (no
assistant message); if the agent completes and the (empty-substituted) final
text passes message validation and the trace extraction succeeds, the
assistant message is appended after the inbound one; if the final text fails
validation, only the inbound message is committed and the call fails. -/
theorem C1_write_ordering (db : ChatDB) (uid cid newId now : Nat)
    (req : ChatRequest) (agent : AgentFun) (conv : Conversation)
    (hreq : req.valid = true) (hcid : req.conversation_id = some cid)
    (hown : verify_conversation_ownership db uid cid = .ok conv) :
    (⟨conv.id, "user", req.message, now⟩ : Message)
        ∈ (process_chat_message db uid req agent newId now).1.messages
    ∧ (∀ e, agent (chat_agent_input (get_messages db conv.id) req.message) (toString uid)
          = .raises e →
        process_chat_message db uid req agent newId now
          = ((add_message db conv.id ⟨"user", req.message⟩ now).1, .error e))
    ∧ (∀ result tool_calls,
        agent (chat_agent_input (get_messages db conv.id) req.message) (toString uid)
          = .completes result →
        extract_tool_calls result.new_items = .ok tool_calls →
        1 ≤ (result.final_output.getD "").length →
        (result.final_output.getD "").length ≤ 50000 →
        process_chat_message db uid req agent newId now
          = ((add_message (add_message db conv.id ⟨"user", req.message⟩ now).1 conv.id
                ⟨"assistant", result.final_output.getD ""⟩ now).1,
             .ok ⟨conv.id, result.final_output.getD "", tool_calls, now⟩))
    ∧ (∀ result,
        agent (chat_agent_input (get_messages db conv.id) req.message) (toString uid)
          = .completes result →
        ¬(1 ≤ (result.final_output.getD "").length
            ∧ (result.final_output.getD "").length ≤ 50000) →
        (process_chat_message db uid req agent newId now).1
            = (add_message db conv.id ⟨"user", req.message⟩ now).1
          ∧ exceptOk (process_chat_message db uid req agent newId now).2 = false) := by
  have hval : MessageCreate.validate "user" req.message = .ok ⟨"user", req.message⟩ :=
    validate_ok "user" req.message rfl hreq
  refine ⟨?_, ?_, ?_, ?_⟩
  · cases hres : agent (chat_agent_input (get_messages db conv.id) req.message)
        (toString uid) with
    | raises e =>
      rw [process_resolved_raises db uid cid newId now req agent conv e hcid hown hval hres]
      exact mem_add_message_self db conv.id ⟨"user", req.message⟩ now
    | completes result =>
      cases hext : extract_tool_calls result.new_items with
      | error e =>
        rw [process_resolved_extract_error db uid cid newId now req agent conv result e
          hcid hown hval hres hext]
        exact mem_add_message_self db conv.id ⟨"user", req.message⟩ now
      | ok tc =>
        cases hva : MessageCreate.validate "assistant" (result.final_output.getD "") with
        | error e =>
          rw [process_resolved_validate_error db uid cid newId now req agent conv result tc e
            hcid hown hval hres hext hva]
          exact mem_add_message_self db conv.id ⟨"user", req.message⟩ now
        | ok mc2 =>
          rw [process_resolved_success db uid cid newId now req agent conv result tc mc2
            hcid hown hval hres hext hva]
          exact mem_add_message_of_mem _ conv.id mc2 now _
            (mem_add_message_self db conv.id ⟨"user", req.message⟩ now)
  · intro e he
    exact process_resolved_raises db uid cid newId now req agent conv e hcid hown hval he
  · intro result tool_calls hres hext h1 h2
    have hva := validate_ok "assistant" (result.final_output.getD "") rfl
      (by rw [decide_eq_true h1, decide_eq_true h2]; rfl)
    exact process_resolved_success db uid cid newId now req agent conv result tool_calls
      ⟨"assistant", result.final_output.getD ""⟩ hcid hown hval hres hext hva
  · intro result hres hnv
    cases hext : extract_tool_calls result.new_items with
    | error e =>
      rw [process_resolved_extract_error db uid cid newId now req agent conv result e
        hcid hown hval hres hext]
      exact ⟨rfl, rfl⟩
    | ok tc =>
      rw [process_resolved_validate_error db uid cid newId now req agent conv result tc _
        hcid hown hval hres hext (validate_fail "assistant" _ hnv)]
      exact ⟨rfl, rfl⟩

/-- Witness for C1 amended: the raising-agent case on a one-conversation
database. -/
theorem C1_write_ordering_witness :
    (⟨exConv.id, "user", "hello", 5⟩ : Message)
        ∈ (process_chat_message exConvDB 7 ⟨"hello", some 1⟩ exAgentRaise 99 5).1.messages
    ∧ process_chat_message exConvDB 7 ⟨"hello", some 1⟩ exAgentRaise 99 5
        = ((add_message exConvDB exConv.id ⟨"user", "hello"⟩ 5).1, .error .maxTurnsExceeded) := by
  have h := C1_write_ordering exConvDB 7 1 99 5 ⟨"hello", some 1⟩ exAgentRaise exConv
    rfl rfl rfl
  exact ⟨h.1, h.2.1 .maxTurnsExceeded rfl⟩

/-- C3: with an authenticated request carrying a conversation id, a
conversation that exists under no row at all yields HTTP 404 with the
not-found detail, while a conversation that exists but under a different
owner yields the distinct HTTP 403 ownership signal; in both cases the
returned database is the input database, so no message was appended to any
conversation. -/
theorem C3_conversation_resolution (db : ChatDB) (uid cid newId now : Nat)
    (req : ChatRequest) (agent : AgentFun) (hcid : req.conversation_id = some cid) :
    (db.conversations.all (fun c => c.id != cid) = true →
      send_chat_message db uid uid req agent newId now
        = (db, .fail 404 "Conversation not found"))
    ∧ (db.conversations.any (fun c => c.id == cid) = true →
       db.conversations.all (fun c => !(c.id == cid && c.user_id == uid)) = true →
       send_chat_message db uid uid req agent newId now
        = (db, .fail 403 "Access denied")) := by
  constructor
  · intro hall
    have hget : get_conversation db uid cid = none := by
      apply List.find?_eq_none.2
      intro x hx
      have hne := (List.all_eq_true (p := fun c => c.id != cid)).1 hall x hx
      simp only [bne_iff_ne, ne_eq] at hne
      simp [hne]
    have hex : conversation_exists db cid = false := by
      unfold conversation_exists
      have hfind : db.conversations.find? (fun c => c.id == cid) = none := by
        apply List.find?_eq_none.2
        intro x hx
        have hne := (List.all_eq_true (p := fun c => c.id != cid)).1 hall x hx
        simp only [bne_iff_ne, ne_eq] at hne
        simp [hne]
      rw [hfind]
      rfl
    simp [send_chat_message, process_chat_message, hcid, verify_conversation_ownership,
      hget, hex, map_chat_error, Except.map]
  · intro hany hall
    have hget : get_conversation db uid cid = none := by
      apply List.find?_eq_none.2
      intro x hx
      have hne := (List.all_eq_true
        (p := fun c => !(c.id == cid && c.user_id == uid))).1 hall x hx
      simp only [Bool.not_eq_eq_eq_not, Bool.not_true, Bool.and_eq_false_imp] at hne
      simp only [Bool.and_eq_true, not_and]
      intro h1 h2
      rw [hne h1] at h2
      exact Bool.noConfusion h2
    have hex : conversation_exists db cid = true := by
      unfold conversation_exists
      apply List.find?_isSome.2
      obtain ⟨x, hx, hp⟩ := List.any_eq_true.1 hany
      exact ⟨x, hx, hp⟩
    simp [send_chat_message, process_chat_message, hcid, verify_conversation_ownership,
      hget, hex, map_chat_error, Except.map]

/-- Witness for C3: probing a missing conversation id (99) as the owner, and
probing user 7's conversation 1 as user 8. -/
theorem C3_conversation_resolution_witness :
    send_chat_message exConvDB 7 7 ⟨"hi", some 99⟩ exAgentRaise 50 9
        = (exConvDB, .fail 404 "Conversation not found")
    ∧ send_chat_message exConvDB 8 8 ⟨"hi", some 1⟩ exAgentRaise 50 9
        = (exConvDB, .fail 403 "Access denied") :=
  ⟨(C3_conversation_resolution exConvDB 7 99 50 9 ⟨"hi", some 99⟩ exAgentRaise rfl).1
      (by decide),
   (C3_conversation_resolution exConvDB 8 1 50 9 ⟨"hi", some 1⟩ exAgentRaise rfl).2
      (by decide) (by decide)⟩

/-- Every abort of the extraction loop is a pydantic `ValidationError`, hence
a `ValueError`. -/
theorem extractCalls_error_valueError (m : List (String × OutRaw)) :
    ∀ (items : List RunItem) (e : PyErr),
      extractCalls m items = .error e → e = .valueError toolCallValidationMsg
  | [], e, h => Except.noConfusion h
  | .toolCall c :: rest, e, h => by
    have hmk : ∀ (n : String) (p : DataCand) (r : Option DataCand) (s : Bool),
        mkToolCall n p r s = .error e → e = .valueError toolCallValidationMsg := by
      intro n p r s hm
      cases p with
      | fields ps =>
        cases r with
        | none => exact Except.noConfusion hm
        | some rc =>
          cases rc with
          | fields rs => exact Except.noConfusion hm
          | bad v =>
            simp only [mkToolCall, Except.error.injEq] at hm
            exact hm.symm
      | bad v =>
        cases r with
        | none =>
          simp only [mkToolCall, Except.error.injEq] at hm
          exact hm.symm
        | some rc =>
          simp only [mkToolCall, Except.error.injEq] at hm
          exact hm.symm
    cases hc : extractCallEntry m c with
    | error e1 =>
      simp only [extractCalls, hc] at h
      simp only [Except.error.injEq] at h
      subst h
      unfold extractCallEntry at hc
      cases hk : callKey c with
      | none =>
        simp only [hk] at hc
        exact hmk _ _ _ _ hc
      | some k =>
        simp only [hk] at hc
        cases hl : m.lookup k with
        | none =>
          simp only [hl] at hc
          exact hmk _ _ _ _ hc
        | some o =>
          simp only [hl] at hc
          exact hmk _ _ _ _ hc
    | ok entry =>
      simp only [extractCalls, hc] at h
      cases hr : extractCalls m rest with
      | error e2 =>
        rw [hr] at h
        simp only [Except.error.injEq] at h
        subst h
        exact extractCalls_error_valueError m rest e2 hr
      | ok tr =>
        rw [hr] at h
        exact Except.noConfusion h
  | .toolOutput o :: rest, e, h => extractCalls_error_valueError m rest e h
  | .otherItem :: rest, e, h => extractCalls_error_valueError m rest e h

/-- C10: when the agent loop completes with an empty final output on an owned
conversation, the attempted assistant-message persistence fails the
minimum-length validation, the resulting `ValueError` is mapped by the chat
endpoint to HTTP 404 "Conversation not found" — even though the conversation
exists and is owned by the caller — and the database keeps the already
persisted inbound user message with no assistant message added. -/
theorem C10_empty_output_maps_to_404 (db : ChatDB) (uid cid newId now : Nat)
    (req : ChatRequest) (agent : AgentFun) (conv : Conversation) (result : RunResult)
    (hreq : req.valid = true) (hcid : req.conversation_id = some cid)
    (hown : verify_conversation_ownership db uid cid = .ok conv)
    (hres : agent (chat_agent_input (get_messages db conv.id) req.message) (toString uid)
        = .completes result)
    (hempty : result.final_output.getD "" = "") :
    send_chat_message db uid uid req agent newId now
      = ((add_message db conv.id ⟨"user", req.message⟩ now).1,
         .fail 404 "Conversation not found")
    ∧ (⟨conv.id, "user", req.message, now⟩ : Message)
        ∈ (add_message db conv.id ⟨"user", req.message⟩ now).1.messages
    ∧ conv.user_id = uid := by
  have hval : MessageCreate.validate "user" req.message = .ok ⟨"user", req.message⟩ :=
    validate_ok "user" req.message rfl hreq
  have hsend : ∀ m, process_chat_message db uid req agent newId now
      = ((add_message db conv.id ⟨"user", req.message⟩ now).1, .error (.valueError m)) →
      send_chat_message db uid uid req agent newId now
        = ((add_message db conv.id ⟨"user", req.message⟩ now).1,
           .fail 404 "Conversation not found") := by
    intro m hp
    simp [send_chat_message, hp, map_chat_error]
  constructor
  · cases hext : extract_tool_calls result.new_items with
    | error e =>
      have he := extractCalls_error_valueError (buildOutputMap result.new_items)
        result.new_items e hext
      subst he
      exact hsend _ (process_resolved_extract_error db uid cid newId now req agent conv
        result _ hcid hown hval hres hext)
    | ok tc =>
      have hva : MessageCreate.validate "assistant" (result.final_output.getD "")
          = .error (.valueError msgCreateValidationMsg) := by
        rw [hempty]
        rfl
      exact hsend _ (process_resolved_validate_error db uid cid newId now req agent conv
        result tc _ hcid hown hval hres hext hva)
  · exact ⟨mem_add_message_self db conv.id ⟨"user", req.message⟩ now,
      (verify_ok_facts db uid cid conv hown).2.2⟩

/-- Witness for C10: the empty-output oracle on the owned conversation 1. -/
theorem C10_empty_output_maps_to_404_witness :
    send_chat_message exConvDB 7 7 ⟨"hello", some 1⟩ exAgentEmpty 99 5
      = ((add_message exConvDB exConv.id ⟨"user", "hello"⟩ 5).1,
         .fail 404 "Conversation not found")
    ∧ (⟨exConv.id, "user", "hello", 5⟩ : Message)
        ∈ (add_message exConvDB exConv.id ⟨"user", "hello"⟩ 5).1.messages
    ∧ exConv.user_id = 7 :=
  C10_empty_output_maps_to_404 exConvDB 7 1 99 5 ⟨"hello", some 1⟩ exAgentEmpty exConv
    ⟨some "", []⟩ rfl rfl rfl rfl rfl

/-!
Tool-call trace extraction lemmas (C6).
-/

/-- The tool-call raw items of a run, in order. -/
def callRawsOf (items : List RunItem) : List CallRaw :=
  items.filterMap (fun it =>
    match it with
    | .toolCall c => some c
    | _ => none)

/-- A call item whose arguments payload does not parse to a non-object JSON
value (the only call shape whose `ToolCall` construction raises). -/
def callRawGood (c : CallRaw) : Bool :=
  match (callNameArgs c).2 with
  | some (.jother _) => false
  | _ => true

/-- An output item whose string payload does not parse to a non-object JSON
value (the only matched-output shape whose `ToolCall` construction raises). -/
def outRawGood (o : OutRaw) : Bool :=
  match o.output with
  | .strOut _ (.jother _) => false
  | _ => true

/-- Benignity of a whole run-item list. -/
def runItemsGood (items : List RunItem) : Bool :=
  items.all (fun it =>
    match it with
    | .toolCall c => callRawGood c
    | .toolOutput o => outRawGood o
    | .otherItem => true)

/-- The parameter dictionary recorded for a call item: the parsed object when
the arguments parse to one, the empty dictionary otherwise. -/
def entryParams (c : CallRaw) : List (String × String) :=
  match paramsOf (callNameArgs c).2 with
  | .fields fs => fs
  | .bad _ => []

/-- The trace entry produced for a benign call item. -/
def entryOk (m : List (String × OutRaw)) (c : CallRaw) : ToolCall :=
  match callKey c with
  | some k =>
    match m.lookup k with
    | some o =>
      match (resultOf o).1 with
      | some (.fields rs) => ⟨(callNameArgs c).1, entryParams c, some rs, (resultOf o).2⟩
      | some (.bad _) => ⟨(callNameArgs c).1, entryParams c, none, (resultOf o).2⟩
      | none => ⟨(callNameArgs c).1, entryParams c, none, (resultOf o).2⟩
    | none => ⟨(callNameArgs c).1, entryParams c, none, false⟩
  | none => ⟨(callNameArgs c).1, entryParams c, none, false⟩

/-- The recorded entry always carries the extracted tool name. -/
theorem entryOk_tool_name (m : List (String × OutRaw)) (c : CallRaw) :
    (entryOk m c).tool_name = (callNameArgs c).1 := by
  cases hk : callKey c with
  | none => simp [entryOk, hk]
  | some k =>
    cases hl : m.lookup k with
    | none => simp [entryOk, hk, hl]
    | some o =>
      cases hro : (resultOf o).1 with
      | none => simp [entryOk, hk, hl, hro]
      | some rc => cases rc <;> simp [entryOk, hk, hl, hro]

/-- The recorded entry always carries the degraded parameter dictionary. -/
theorem entryOk_parameters (m : List (String × OutRaw)) (c : CallRaw) :
    (entryOk m c).parameters = entryParams c := by
  cases hk : callKey c with
  | none => simp [entryOk, hk]
  | some k =>
    cases hl : m.lookup k with
    | none => simp [entryOk, hk, hl]
    | some o =>
      cases hro : (resultOf o).1 with
      | none => simp [entryOk, hk, hl, hro]
      | some rc => cases rc <;> simp [entryOk, hk, hl, hro]

/-- Benign call items have an object (or degraded-to-empty) parameter set. -/
theorem paramsOf_good (c : CallRaw) (hc : callRawGood c = true) :
    paramsOf (callNameArgs c).2 = .fields (entryParams c) := by
  unfold entryParams
  cases h : (callNameArgs c).2 with
  | none => simp [paramsOf]
  | some p =>
    cases p with
    | fail => simp [paramsOf]
    | jobj fs => simp [paramsOf]
    | jother v =>
      simp [callRawGood, h] at hc

/-- A benign output never surfaces a non-object result candidate. -/
theorem resultOf_good (o : OutRaw) (ho : outRawGood o = true) (v : String) :
    (resultOf o).1 ≠ some (.bad v) := by
  unfold resultOf
  cases hout : o.output with
  | strOut raw p =>
    cases p with
    | fail => simp
    | jobj fs => simp
    | jother w => simp [outRawGood, hout] at ho
  | dictOut fs => simp
  | otherOut r => simp

/-- A successful association-list lookup pairs the key with a member row. -/
theorem lookup_mem_pair {β : Type} (k : String) (o : β) :
    ∀ m : List (String × β), m.lookup k = some o → (k, o) ∈ m
  | [], h => Option.noConfusion h
  | (k1, o1) :: rest, h => by
    by_cases hk : (k == k1) = true
    · have hkk : k = k1 := by simpa using hk
      simp only [List.lookup, hk] at h
      simp only [Option.some.injEq] at h
      subst hkk
      subst h
      exact List.mem_cons_self _ _
    · have hkf : (k == k1) = false := by simpa using hk
      simp only [List.lookup, hkf] at h
      exact List.mem_cons_of_mem _ (lookup_mem_pair k o rest h)

/-- On a benign call matched against a benign output map, the per-item
extraction succeeds and produces exactly the recorded entry. -/
theorem extractCallEntry_good (m : List (String × OutRaw)) (c : CallRaw)
    (hc : callRawGood c = true) (hm : ∀ p ∈ m, outRawGood p.2 = true) :
    extractCallEntry m c = .ok (entryOk m c) := by
  have hp := paramsOf_good c hc
  cases hk : callKey c with
  | none => simp [extractCallEntry, entryOk, hk, hp, mkToolCall]
  | some k =>
    cases hl : m.lookup k with
    | none => simp [extractCallEntry, entryOk, hk, hl, hp, mkToolCall]
    | some o =>
      have ho : outRawGood o = true := by
        have hmem : (k, o) ∈ m := lookup_mem_pair k o m hl
        exact hm (k, o) hmem
      cases hro : (resultOf o).1 with
      | none => simp [extractCallEntry, entryOk, hk, hl, hp, hro, mkToolCall]
      | some rc =>
        cases rc with
        | fields rs => simp [extractCallEntry, entryOk, hk, hl, hp, hro, mkToolCall]
        | bad v => exact absurd hro (resultOf_good o ho v)

/-- Every binding of the output map is keyed from a tool-output item of the
run. -/
theorem buildOutputMapAux_mem :
    ∀ (items : List RunItem) (m0 : List (String × OutRaw)) (p : String × OutRaw),
      p ∈ buildOutputMapAux m0 items → p ∈ m0 ∨ RunItem.toolOutput p.2 ∈ items
  | [], m0, p, h => Or.inl h
  | .toolCall c :: rest, m0, p, h => by
    rcases buildOutputMapAux_mem rest m0 p h with h1 | h2
    · exact Or.inl h1
    · exact Or.inr (List.mem_cons_of_mem _ h2)
  | .toolOutput o :: rest, m0, p, h => by
    unfold buildOutputMapAux at h
    cases hk : outputKey o with
    | none =>
      rw [hk] at h
      rcases buildOutputMapAux_mem rest m0 p h with h1 | h2
      · exact Or.inl h1
      · exact Or.inr (List.mem_cons_of_mem _ h2)
    | some k =>
      rw [hk] at h
      rcases buildOutputMapAux_mem rest (insertOutput m0 k o) p h with h1 | h2
      · unfold insertOutput at h1
        rcases List.mem_append.1 h1 with h3 | h4
        · exact Or.inl (List.mem_of_mem_filter h3)
        · have : p = (k, o) := by simpa using h4
          subst this
          exact Or.inr (List.mem_cons_self _ _)
      · exact Or.inr (List.mem_cons_of_mem _ h2)
  | .otherItem :: rest, m0, p, h => by
    rcases buildOutputMapAux_mem rest m0 p h with h1 | h2
    · exact Or.inl h1
    · exact Or.inr (List.mem_cons_of_mem _ h2)

/-- On a benign item list the extraction loop succeeds and the trace is the
in-order image of the tool-call items. -/
theorem extractCalls_good (m : List (String × OutRaw))
    (hm : ∀ p ∈ m, outRawGood p.2 = true) :
    ∀ items : List RunItem, runItemsGood items = true →
      extractCalls m items = .ok ((callRawsOf items).map (entryOk m))
  | [], _ => rfl
  | .toolCall c :: rest, h => by
    unfold runItemsGood at h
    rw [List.all_cons, Bool.and_eq_true] at h
    have hentry := extractCallEntry_good m c h.1 hm
    have hih := extractCalls_good m hm rest h.2
    simp only [extractCalls, hentry, hih, callRawsOf, List.filterMap_cons, List.map_cons]
  | .toolOutput o :: rest, h => by
    unfold runItemsGood at h
    rw [List.all_cons, Bool.and_eq_true] at h
    have hih := extractCalls_good m hm rest h.2
    simp only [extractCalls, hih, callRawsOf, List.filterMap_cons]
  | .otherItem :: rest, h => by
    unfold runItemsGood at h
    rw [List.all_cons, Bool.and_eq_true] at h
    have hih := extractCalls_good m hm rest h.2
    simp only [extractCalls, hih, callRawsOf, List.filterMap_cons]

/-- C6 counterexample: a single tool-call item whose arguments string parses
to the JSON number 3 (not an object) makes `extract_tool_calls` raise a
pydantic `ValidationError` instead of returning a trace — refuting
"extraction itself never raises, regardless of the shape of the run items". -/
theorem C6_counterexample :
    extract_tool_calls
        [.toolCall ⟨none, none, none, some "add_task_tool", some (.jother "3")⟩]
      = .error (.valueError toolCallValidationMsg) := rfl

/-- C6 amended: on run items whose parameter payloads and matched string
outputs never parse to non-object JSON values, extraction succeeds and the
trace is the in-order image of the tool-call items (each exactly once, names
preserved); a call with no matching output under its correlation key is
recorded with result `none` and `success := false`; and an arguments string
that fails to parse degrades to the empty parameter dictionary.  Without that
benignity proviso extraction can raise (see the counterexample). -/
theorem C6_extraction_trace (items : List RunItem) (h : runItemsGood items = true) :
    extract_tool_calls items
        = .ok ((callRawsOf items).map (entryOk (buildOutputMap items)))
    ∧ ((callRawsOf items).map (entryOk (buildOutputMap items))).map
          (fun e => e.tool_name)
        = (callRawsOf items).map (fun c => (callNameArgs c).1)
    ∧ (∀ c ∈ callRawsOf items,
        (∀ k, callKey c = some k → (buildOutputMap items).lookup k = none) →
        (entryOk (buildOutputMap items) c).result = none
          ∧ (entryOk (buildOutputMap items) c).success = false)
    ∧ (∀ c ∈ callRawsOf items, (callNameArgs c).2 = some .fail →
        (entryOk (buildOutputMap items) c).parameters = []) := by
  have hm : ∀ p ∈ buildOutputMap items, outRawGood p.2 = true := by
    intro p hp
    rcases buildOutputMapAux_mem items [] p hp with h1 | h2
    · exact absurd h1 (List.not_mem_nil p)
    · have := List.all_eq_true.1 h _ h2
      exact this
  refine ⟨extractCalls_good (buildOutputMap items) hm items h, ?_, ?_, ?_⟩
  · rw [List.map_map]
    exact List.map_congr_left (fun c _ => entryOk_tool_name (buildOutputMap items) c)
  · intro c _ hun
    cases hk : callKey c with
    | none => simp [entryOk, hk]
    | some k => simp [entryOk, hk, hun k hk]
  · intro c _ hfail
    rw [entryOk_parameters]
    unfold entryParams
    rw [hfail]
    rfl

/-- Example run items for the C6 witness: a call matched by an output whose
string payload fails to parse, and an unmatched call whose arguments string
fails to parse. -/
def exRunItems : List RunItem :=
  [.toolCall ⟨some "call_a", none, none, some "add_task_tool",
      some (.jobj [("title", "Buy milk")])⟩,
   .toolOutput ⟨false, none, some "call_a", .strOut "created" .fail⟩,
   .toolCall ⟨some "call_b", none, none, some "list_tasks_tool", some .fail⟩,
   .otherItem]

/-- Witness for C6 amended on the concrete run-item list. -/
theorem C6_extraction_trace_witness :
    extract_tool_calls exRunItems
        = .ok ((callRawsOf exRunItems).map (entryOk (buildOutputMap exRunItems)))
    ∧ ((callRawsOf exRunItems).map (entryOk (buildOutputMap exRunItems))).map
          (fun e => e.tool_name)
        = (callRawsOf exRunItems).map (fun c => (callNameArgs c).1)
    ∧ (∀ c ∈ callRawsOf exRunItems,
        (∀ k, callKey c = some k → (buildOutputMap exRunItems).lookup k = none) →
        (entryOk (buildOutputMap exRunItems) c).result = none
          ∧ (entryOk (buildOutputMap exRunItems) c).success = false)
    ∧ (∀ c ∈ callRawsOf exRunItems, (callNameArgs c).2 = some .fail →
        (entryOk (buildOutputMap exRunItems) c).parameters = []) :=
  C6_extraction_trace exRunItems (by decide)

end TaskChat
